import Mathlib

/-!
Verification of the DUCC-Website icon build scripts
(`src/iconFormating.py`, `iconjs.py`, `temprename.py`).

Python strings are modelled as `List Char`; Python's `str.find`,
`str.rfind` (result `-1` when absent) and slice operations (with their
negative-index semantics) are embedded explicitly, and each script's
per-file computation is embedded as a pure function on those lists.
-/

set_option autoImplicit false

namespace Icons

/-- Boolean test that `p` occurs at the head of `s` (character-wise). -/
def pfx : List Char → List Char → Bool
  | [], _ => true
  | _ :: _, [] => false
  | a :: as, b :: bs => if a = b then pfx as bs else false

/-- Index of the first occurrence of pattern `p` in `s`, if any
(the `some`/`none` form of Python's `str.find`). -/
def findSub (p : List Char) : List Char → Option Nat
  | [] => if pfx p [] then some 0 else none
  | c :: rest =>
      if pfx p (c :: rest) then some 0
      else (findSub p rest).map (fun n => n + 1)

/-- Index of the last occurrence of pattern `p` in `s`, if any
(the `some`/`none` form of Python's `str.rfind`). -/
def rfindSub (p : List Char) : List Char → Option Nat
  | [] => if pfx p [] then some 0 else none
  | c :: rest =>
      match rfindSub p rest with
      | some n => some (n + 1)
      | none => if pfx p (c :: rest) then some 0 else none

/-- Python's `s.find(p)`: first index of `p` in `s`, `-1` when absent. -/
def pyFind (s p : List Char) : Int :=
  match findSub p s with
  | some n => (n : Int)
  | none => -1

/-- Python's `s.rfind(p)`: last index of `p` in `s`, `-1` when absent. -/
def pyRfind (s p : List Char) : Int :=
  match rfindSub p s with
  | some n => (n : Int)
  | none => -1

/-- Python's slice `s[:k]`, including negative-index semantics. -/
def pySliceTo (s : List Char) (k : Int) : List Char :=
  if 0 ≤ k then s.take k.toNat
  else s.take (s.length - (-k).toNat)

/-- Python's slice `s[k:]`, including negative-index semantics. -/
def pySliceFrom (s : List Char) (k : Int) : List Char :=
  if 0 ≤ k then s.drop k.toNat
  else s.drop (s.length - (-k).toNat)

/-- The renaming marker substring `"dp_"` of the filename normalizer. -/
def marker : List Char := ['d', 'p', '_']

/-- Embeds `newName = file[:file[:file.find("dp_")].rfind("_")] + file[file.rfind("."):]`
(temprename.py line 10, iconFormating.py line 23). -/
def newName (file : List Char) : List Char :=
  pySliceTo file (pyRfind (pySliceTo file (pyFind file marker)) ['_'])
    ++ pySliceFrom file (pyRfind file ['.'])

/-- One iteration of the rename loop: a file whose name lacks the marker is
skipped (`continue`), otherwise it is renamed to `newName`. The function
returns the file's name after the iteration. -/
def renameStep (file : List Char) : List Char :=
  if pyFind file marker = -1 then file else newName file

/-- The pattern `fill="` searched for by the fill stripper. -/
def fillPat : List Char := ['f', 'i', 'l', 'l', '=', '"']

/-- The guarded fill stripper of iconFormating.py lines 41-45:
`startFill = icon.find('fill="')`; when present,
`endFill = icon[startFill + 6:].find('"') + startFill + 6 + 1` and
`icon = icon[:startFill] + icon[endFill:]`. -/
def stripFill (icon : List Char) : List Char :=
  let startFill := pyFind icon fillPat
  if startFill ≠ -1 then
    let endFill :=
      pyFind (pySliceFrom icon (startFill + (fillPat.length : Int))) ['"']
        + startFill + (fillPat.length : Int) + 1
    pySliceTo icon startFill ++ pySliceFrom icon endFill
  else icon

/-- Embeds `name = file[:file.rfind(".")].replace("-", "_").upper() + "_SVG"`
(iconFormating.py line 38, iconjs.py line 14). -/
def constName (file : List Char) : List Char :=
  ((pySliceTo file (pyRfind file ['.'])).map
      (fun c => if c = '-' then '_' else c)).map Char.toUpper
    ++ ['_', 'S', 'V', 'G']

/-- The module-generation loop of iconFormating.py lines 33-51, with the two
accumulators `icons` and `iconNames` passed explicitly. Each `(file, content)`
pair contributes one `const NAME = \x60...\x60` declaration and one entry in
the name list. -/
def genLoop : List (List Char × List Char) → List Char → List Char →
    List Char × List Char
  | [], icons, iconNames => (icons, iconNames)
  | (file, content) :: rest, icons, iconNames =>
      let name := constName file
      let icon := stripFill content
      let icons2 := icons ++ "const ".data ++ name ++ " = `".data
        ++ icon ++ "`\n".data
      let iconNames2 :=
        (if iconNames ≠ ['\x7b'] then iconNames ++ [','] else iconNames)
          ++ [' '] ++ name ++ [' ']
      genLoop rest icons2 iconNames2

/-- The full generated module text (iconFormating.py lines 30-55): run the
loop from `icons = ""` and `iconNames = "\x7b"`, then append
`"\nexport " + iconNames + "\x7d;\n"`. -/
def genModule (files : List (List Char × List Char)) : List Char :=
  let r := genLoop files [] ['\x7b']
  r.1 ++ "\nexport ".data ++ r.2 ++ "\x7d;\n".data

/-- Occurrence count of pattern `p` in `s` (number of start positions). -/
def countSub (p s : List Char) : Nat :=
  ((List.range (s.length + 1)).filter (fun i => pfx p (s.drop i))).length

lemma findSub_sing_none (c : Char) : ∀ s : List Char, c ∉ s →
    findSub [c] s = none := by
  intro s
  induction s with
  | nil => intro _; rfl
  | cons x rest ih =>
      intro h
      have hx : ¬ c = x := fun hc => h (hc ▸ List.mem_cons_self x rest)
      have hr : c ∉ rest := fun hc => h (List.mem_cons_of_mem x hc)
      simp [findSub, pfx, hx, ih hr]

lemma findSub_sing_at (c : Char) (b : List Char) : ∀ X : List Char, c ∉ X →
    findSub [c] (X ++ c :: b) = some X.length := by
  intro X
  induction X with
  | nil => intro _; simp [findSub, pfx]
  | cons x rest ih =>
      intro h
      have hx : ¬ c = x := fun hc => h (hc ▸ List.mem_cons_self x rest)
      have hr : c ∉ rest := fun hc => h (List.mem_cons_of_mem x hc)
      simp [findSub, pfx, hx, ih hr]

lemma rfindSub_sing_none (c : Char) : ∀ s : List Char, c ∉ s →
    rfindSub [c] s = none := by
  intro s
  induction s with
  | nil => intro _; rfl
  | cons x rest ih =>
      intro h
      have hx : ¬ c = x := fun hc => h (hc ▸ List.mem_cons_self x rest)
      have hr : c ∉ rest := fun hc => h (List.mem_cons_of_mem x hc)
      simp [rfindSub, pfx, hx, ih hr]

lemma rfindSub_sing_last (c : Char) (v : List Char) (hv : c ∉ v) :
    ∀ w : List Char, rfindSub [c] (w ++ c :: v) = some w.length := by
  intro w
  induction w with
  | nil => simp [rfindSub, pfx, rfindSub_sing_none c v hv]
  | cons x rest ih => simp [rfindSub, ih]

/-- Claim C1: for every SVG input text containing zero `fill="..."`
attributes (no occurrence of the pattern `fill="`), the guarded fill
stripper returns the input unchanged, because it checks the attribute's
presence before computing and splicing out the removal span. -/
theorem stripFill_absent_id (icon : List Char)
    (h : findSub fillPat icon = none) : stripFill icon = icon := by
  simp [stripFill, pyFind, h]

theorem stripFill_absent_id_witness :
    findSub fillPat ("<svg d=\"M1 1\"/>".data) = none ∧
      stripFill ("<svg d=\"M1 1\"/>".data) = "<svg d=\"M1 1\"/>".data :=
  ⟨by decide, stripFill_absent_id _ (by decide)⟩

/-- Claim C8: a filename that does not contain the marker substring `dp_`
is left unchanged by the rename loop (its iteration is a `continue`). -/
theorem renameStep_no_marker (file : List Char)
    (h : findSub marker file = none) : renameStep file = file := by
  simp [renameStep, pyFind, h]

theorem renameStep_no_marker_witness :
    findSub marker ("icon.svg".data) = none ∧
      renameStep ("icon.svg".data) = "icon.svg".data :=
  ⟨by decide, renameStep_no_marker _ (by decide)⟩

/-- Claim C7: for a filename of the form `stem ++ ".svg"`, the derived
constant name is the stem (text up to the last dot) with every hyphen
replaced by an underscore, uppercased, with the fixed suffix `_SVG`
appended. -/
theorem constName_svg_suffix (stem : List Char) :
    constName (stem ++ '.' :: ['s', 'v', 'g']) =
      ((stem.map (fun c => if c = '-' then '_' else c)).map Char.toUpper)
        ++ ['_', 'S', 'V', 'G'] := by
  have hr : rfindSub ['.'] (stem ++ '.' :: ['s', 'v', 'g']) = some stem.length :=
    rfindSub_sing_last '.' ['s', 'v', 'g'] (by decide) stem
  have h1 : pyRfind (stem ++ '.' :: ['s', 'v', 'g']) ['.'] = (stem.length : Int) := by
    simp [pyRfind, hr]
  have h2 : pySliceTo (stem ++ '.' :: ['s', 'v', 'g']) ((stem.length : Int)) = stem := by
    have ht : ((stem.length : Int)).toNat = stem.length := by omega
    simp [pySliceTo, ht, List.take_left]
  simp [constName, h1, h2]

/-- Claim C10: in the guarded stripper, when `fill="` occurs but no double
quote occurs after that occurrence, the search for the closing quote fails
(`find` yields `-1`, so `endFill = startFill + 6`) and the output is the
input with exactly the six characters of the first `fill="` removed. -/
theorem stripFill_no_close (a b : List Char)
    (hfirst : findSub fillPat ((a ++ fillPat) ++ b) = some a.length)
    (hb : '"' ∉ b) :
    stripFill ((a ++ fillPat) ++ b) = a ++ b := by
  have hlen : (a ++ fillPat).length = a.length + 6 := by simp [fillPat]
  have hdrop : ∀ k : Int, k = (a.length : Int) + 6 →
      pySliceFrom ((a ++ fillPat) ++ b) k = b := by
    intro k hk
    have h0 : (0 : Int) ≤ k := by omega
    have hkt : k.toNat = a.length + 6 := by omega
    unfold pySliceFrom
    rw [if_pos h0, hkt]
    exact List.drop_left' hlen
  have htake : pySliceTo ((a ++ fillPat) ++ b) ((a.length : Int)) = a := by
    have h0 : (0 : Int) ≤ (a.length : Int) := by omega
    have ht : ((a.length : Int)).toNat = a.length := by omega
    unfold pySliceTo
    rw [if_pos h0, ht, List.append_assoc]
    exact List.take_left' rfl
  have h1 : pyFind ((a ++ fillPat) ++ b) fillPat = (a.length : Int) := by
    unfold pyFind
    rw [hfirst]
  have h2 : pyFind b ['"'] = -1 := by
    unfold pyFind
    rw [findSub_sing_none '"' b hb]
  have hfl : ((fillPat.length : Nat) : Int) = 6 := rfl
  simp only [stripFill, h1, hfl]
  rw [if_pos (by omega : ¬ ((a.length : Int)) = -1)]
  rw [hdrop ((a.length : Int) + 6) rfl, h2,
    hdrop (-1 + (a.length : Int) + 6 + 1) (by ring), htake]

theorem stripFill_no_close_witness :
    findSub fillPat (("<p ".data ++ fillPat) ++ "broken".data) = some 3 ∧
      '"' ∉ "broken".data ∧
      stripFill (("<p ".data ++ fillPat) ++ "broken".data) =
        "<p ".data ++ "broken".data :=
  ⟨by decide, by decide, stripFill_no_close _ _ (by decide) (by decide)⟩

/-- Claim C2: for input containing exactly one `fill="X"` attribute (`X`
free of double quotes, no other occurrence of `fill="`), the guarded
stripper removes exactly that attribute — key, equals sign, and quoted
value — and alters no other character. -/
theorem stripFill_single (a X b : List Char)
    (hfirst : findSub fillPat ((a ++ fillPat) ++ (X ++ '"' :: b)) = some a.length)
    (hX : '"' ∉ X)
    (_honce : findSub fillPat (X ++ '"' :: b) = none) :
    stripFill ((a ++ fillPat) ++ (X ++ '"' :: b)) = a ++ b := by
  have hlen : (a ++ fillPat).length = a.length + 6 := by simp [fillPat]
  have h1 : pyFind ((a ++ fillPat) ++ (X ++ '"' :: b)) fillPat = (a.length : Int) := by
    unfold pyFind
    rw [hfirst]
  have hdrop6 : ∀ k : Int, k = (a.length : Int) + 6 →
      pySliceFrom ((a ++ fillPat) ++ (X ++ '"' :: b)) k = X ++ '"' :: b := by
    intro k hk
    have h0 : (0 : Int) ≤ k := by omega
    have hkt : k.toNat = a.length + 6 := by omega
    unfold pySliceFrom
    rw [if_pos h0, hkt]
    exact List.drop_left' hlen
  have hq : pyFind (X ++ '"' :: b) ['"'] = (X.length : Int) := by
    unfold pyFind
    rw [findSub_sing_at '"' b X hX]
  have hre : (a ++ fillPat) ++ (X ++ '"' :: b) =
      (((a ++ fillPat) ++ X) ++ ['"']) ++ b := by
    simp [List.append_assoc]
  have hlen2 : (((a ++ fillPat) ++ X) ++ ['"']).length =
      a.length + 6 + X.length + 1 := by
    simp [fillPat]
    omega
  have hdropEnd : ∀ k : Int, k = (X.length : Int) + (a.length : Int) + 6 + 1 →
      pySliceFrom ((a ++ fillPat) ++ (X ++ '"' :: b)) k = b := by
    intro k hk
    have h0 : (0 : Int) ≤ k := by omega
    have hkt : k.toNat = a.length + 6 + X.length + 1 := by omega
    rw [hre]
    unfold pySliceFrom
    rw [if_pos h0, hkt]
    exact List.drop_left' hlen2
  have htake : pySliceTo ((a ++ fillPat) ++ (X ++ '"' :: b)) ((a.length : Int)) = a := by
    have h0 : (0 : Int) ≤ (a.length : Int) := by omega
    have ht : ((a.length : Int)).toNat = a.length := by omega
    unfold pySliceTo
    rw [if_pos h0, ht, List.append_assoc]
    exact List.take_left' rfl
  have hfl : ((fillPat.length : Nat) : Int) = 6 := rfl
  simp only [stripFill, h1, hfl]
  rw [if_pos (by omega : ¬ ((a.length : Int)) = -1)]
  rw [hdrop6 ((a.length : Int) + 6) rfl, hq,
    hdropEnd ((X.length : Int) + (a.length : Int) + 6 + 1) rfl, htake]

theorem stripFill_single_witness :
    findSub fillPat (("<svg ".data ++ fillPat) ++ ("#000".data ++ '"' :: " d=\"M0 0\"/>".data)) = some 5 ∧
      '"' ∉ "#000".data ∧
      findSub fillPat ("#000".data ++ '"' :: " d=\"M0 0\"/>".data) = none ∧
      stripFill (("<svg ".data ++ fillPat) ++ ("#000".data ++ '"' :: " d=\"M0 0\"/>".data)) =
        "<svg ".data ++ " d=\"M0 0\"/>".data :=
  ⟨by decide, by decide, by decide,
    stripFill_single _ _ _ (by decide) (by decide) (by decide)⟩

/-- Claim C5: for a filename of the form `p ++ "_" ++ s ++ "dp_" ++ u ++ "." ++ v`
whose first `dp_` occurrence is the one shown, with no underscore in the
segment `s` between the last preceding underscore and the marker and the
shown dot the last dot, the rename loop renames the file to the portion
before that segment, `p`, concatenated with the original extension
`"." ++ v`. -/
theorem renameStep_marker (p s u v : List Char)
    (hfirst : findSub marker
      (((p ++ '_' :: s) ++ (marker ++ u)) ++ '.' :: v) = some (p.length + 1 + s.length))
    (hs : '_' ∉ s)
    (hv : '.' ∉ v) :
    renameStep (((p ++ '_' :: s) ++ (marker ++ u)) ++ '.' :: v) = p ++ '.' :: v := by
  have h1 : pyFind (((p ++ '_' :: s) ++ (marker ++ u)) ++ '.' :: v) marker
      = ((p.length + 1 + s.length : Nat) : Int) := by
    unfold pyFind
    rw [hfirst]
  have htake1 : pySliceTo (((p ++ '_' :: s) ++ (marker ++ u)) ++ '.' :: v)
      ((p.length + 1 + s.length : Nat) : Int) = p ++ '_' :: s := by
    have h0 : (0 : Int) ≤ ((p.length + 1 + s.length : Nat) : Int) := by omega
    have ht : (((p.length + 1 + s.length : Nat) : Int)).toNat
        = p.length + 1 + s.length := by omega
    unfold pySliceTo
    rw [if_pos h0, ht, List.append_assoc]
    exact List.take_left' (by simp only [List.length_append, List.length_cons]; omega)
  have h2 : pyRfind (p ++ '_' :: s) ['_'] = (p.length : Int) := by
    unfold pyRfind
    rw [rfindSub_sing_last '_' s hs p]
  have htake2 : pySliceTo (((p ++ '_' :: s) ++ (marker ++ u)) ++ '.' :: v)
      ((p.length : Nat) : Int) = p := by
    have h0 : (0 : Int) ≤ ((p.length : Nat) : Int) := by omega
    have ht : (((p.length : Nat) : Int)).toNat = p.length := by omega
    unfold pySliceTo
    rw [if_pos h0, ht, List.append_assoc, List.append_assoc]
    exact List.take_left' rfl
  have h3 : pyRfind (((p ++ '_' :: s) ++ (marker ++ u)) ++ '.' :: v) ['.']
      = ((((p ++ '_' :: s) ++ (marker ++ u)).length : Nat) : Int) := by
    unfold pyRfind
    rw [rfindSub_sing_last '.' v hv ((p ++ '_' :: s) ++ (marker ++ u))]
  have hdropd : pySliceFrom (((p ++ '_' :: s) ++ (marker ++ u)) ++ '.' :: v)
      ((((p ++ '_' :: s) ++ (marker ++ u)).length : Nat) : Int) = '.' :: v := by
    have h0 : (0 : Int) ≤ ((((p ++ '_' :: s) ++ (marker ++ u)).length : Nat) : Int) := by
      omega
    have ht : (((((p ++ '_' :: s) ++ (marker ++ u)).length : Nat) : Int)).toNat
        = ((p ++ '_' :: s) ++ (marker ++ u)).length := by omega
    unfold pySliceFrom
    rw [if_pos h0, ht]
    exact List.drop_left' rfl
  unfold renameStep
  rw [h1, if_neg (by omega : ¬ ((p.length + 1 + s.length : Nat) : Int) = -1)]
  unfold newName
  rw [h1, htake1, h2, htake2, h3, hdropd]

theorem renameStep_marker_witness :
    findSub marker ((("icon".data ++ '_' :: "24".data) ++ (marker ++ "2x".data)) ++ '.' :: "svg".data) = some 7 ∧
      '_' ∉ "24".data ∧ '.' ∉ "svg".data ∧
      renameStep ((("icon".data ++ '_' :: "24".data) ++ (marker ++ "2x".data)) ++ '.' :: "svg".data) =
        "icon".data ++ '.' :: "svg".data :=
  ⟨by decide, by decide, by decide,
    renameStep_marker _ _ _ _ (by decide) (by decide) (by decide)⟩

/-- Claim C9: for a filename that contains the marker `dp_` with no
underscore before its first occurrence (and the shown dot the last dot),
the inner `rfind("_")` yields `-1`, the slice `file[:-1]` keeps the whole
name minus its last character, and the rename loop renames the file to
that prefix concatenated with the text from the last dot onward. -/
theorem renameStep_marker_no_sep (s u v : List Char)
    (hfirst : findSub marker (((s ++ marker) ++ u) ++ '.' :: v) = some s.length)
    (hs : '_' ∉ s)
    (hv : '.' ∉ v) :
    renameStep (((s ++ marker) ++ u) ++ '.' :: v) =
      (((s ++ marker) ++ u) ++ '.' :: v).dropLast ++ '.' :: v := by
  have h1 : pyFind (((s ++ marker) ++ u) ++ '.' :: v) marker = ((s.length : Nat) : Int) := by
    unfold pyFind
    rw [hfirst]
  have htake1 : pySliceTo (((s ++ marker) ++ u) ++ '.' :: v) ((s.length : Nat) : Int) = s := by
    have h0 : (0 : Int) ≤ ((s.length : Nat) : Int) := by omega
    have ht : (((s.length : Nat) : Int)).toNat = s.length := by omega
    unfold pySliceTo
    rw [if_pos h0, ht, List.append_assoc, List.append_assoc]
    exact List.take_left' rfl
  have h2 : pyRfind s ['_'] = -1 := by
    unfold pyRfind
    rw [rfindSub_sing_none '_' s hs]
  have htake2 : pySliceTo (((s ++ marker) ++ u) ++ '.' :: v) (-1 : Int) =
      (((s ++ marker) ++ u) ++ '.' :: v).dropLast := by
    unfold pySliceTo
    rw [if_neg (by omega : ¬ (0 : Int) ≤ (-1 : Int))]
    rw [(by omega : ((-(-1 : Int))).toNat = 1)]
    exact (List.dropLast_eq_take _).symm
  have h3 : pyRfind (((s ++ marker) ++ u) ++ '.' :: v) ['.']
      = ((((s ++ marker) ++ u).length : Nat) : Int) := by
    unfold pyRfind
    rw [rfindSub_sing_last '.' v hv ((s ++ marker) ++ u)]
  have hdropd : pySliceFrom (((s ++ marker) ++ u) ++ '.' :: v)
      ((((s ++ marker) ++ u).length : Nat) : Int) = '.' :: v := by
    have h0 : (0 : Int) ≤ ((((s ++ marker) ++ u).length : Nat) : Int) := by omega
    have ht : (((((s ++ marker) ++ u).length : Nat) : Int)).toNat
        = ((s ++ marker) ++ u).length := by omega
    unfold pySliceFrom
    rw [if_pos h0, ht]
    exact List.drop_left' rfl
  unfold renameStep
  rw [h1, if_neg (by omega : ¬ ((s.length : Nat) : Int) = -1)]
  unfold newName
  rw [h1, htake1, h2, htake2, h3, hdropd]

theorem renameStep_marker_no_sep_witness :
    findSub marker ((([] ++ marker) ++ "icon".data) ++ '.' :: "svg".data) = some 0 ∧
      '_' ∉ ([] : List Char) ∧ '.' ∉ "svg".data ∧
      renameStep ((([] ++ marker) ++ "icon".data) ++ '.' :: "svg".data) =
        ((([] ++ marker) ++ "icon".data) ++ '.' :: "svg".data).dropLast ++ '.' :: "svg".data :=
  ⟨by decide, by decide, by decide,
    renameStep_marker_no_sep _ _ _ (by decide) (by decide) (by decide)⟩

/-- One generated declaration for a `(file, content)` pair, following the
spec's description of the module emitter: a `const` binding of the derived
name to the fill-stripped content in backticks, ending in a newline. -/
def specDecl (fc : List Char × List Char) : List Char :=
  "const ".data ++ constName fc.1 ++ " = `".data ++ stripFill fc.2 ++ "`\n".data

/-- Declaration block described by the spec: exactly one declaration per
file, in enumeration order. -/
def specDeclBlock : List (List Char × List Char) → List Char
  | [] => []
  | fc :: rest => specDecl fc ++ specDeclBlock rest

/-- Tail of the export list described by the spec: `, NAME ` (comma,
space-padded name) for each name after the first, in order. -/
def specExportTail : List (List Char) → List Char
  | [] => []
  | n :: ns => ',' :: ' ' :: (n ++ ' ' :: specExportTail ns)

/-- Body of the export list described by the spec: each name exactly once,
space-padded, comma-separated, in order. -/
def specExportList : List (List Char) → List Char
  | [] => []
  | n :: ns => ' ' :: (n ++ ' ' :: specExportTail ns)

lemma genLoop_go (files : List (List Char × List Char)) :
    ∀ (icons : List Char) (c : Char) (t : List Char),
    genLoop files icons ('\x7b' :: c :: t) =
      (icons ++ specDeclBlock files,
       '\x7b' :: c :: (t ++ specExportTail (files.map (fun fc => constName fc.1)))) := by
  induction files with
  | nil =>
      intro icons c t
      simp [genLoop, specDeclBlock, specExportTail]
  | cons fc rest ih =>
      intro icons c t
      obtain ⟨file, content⟩ := fc
      simp only [genLoop]
      rw [if_pos (show ('\x7b' :: c :: t) ≠ ['\x7b'] by simp)]
      rw [show (((('\x7b' :: c :: t) ++ [',']) ++ [' ']) ++ constName file) ++ [' ']
          = '\x7b' :: c :: (t ++ (',' :: ' ' :: (constName file ++ [' ']))) by simp]
      rw [ih]
      simp [specDecl, specDeclBlock, specExportTail, List.append_assoc]

/-- Claim C6: for files with pairwise-distinct derived constant names, the
generated module is the declaration block — one declaration per file, in
enumeration order — followed by one export statement listing each name
exactly once, in the same order. -/
theorem genModule_distinct (files : List (List Char × List Char))
    (h : (files.map (fun fc => constName fc.1)).Nodup) :
    genModule files = specDeclBlock files ++ "\nexport ".data ++
      ('\x7b' :: specExportList (files.map (fun fc => constName fc.1))) ++
      "\x7d;\n".data := by
  cases files with
  | nil => rfl
  | cons fc rest =>
      obtain ⟨file, content⟩ := fc
      simp only [genModule, genLoop]
      rw [if_neg (show ¬ (['\x7b'] : List Char) ≠ ['\x7b'] by simp)]
      rw [show (((['\x7b'] : List Char) ++ [' ']) ++ constName file) ++ [' ']
          = '\x7b' :: ' ' :: (constName file ++ [' ']) by simp]
      rw [genLoop_go]
      simp [specDecl, specDeclBlock, specExportList, List.append_assoc]

theorem genModule_distinct_witness :
    ([("home.svg".data, "<svg/>".data), ("search-icon.svg".data, "<g/>".data)].map
        (fun fc => constName fc.1)).Nodup ∧
      genModule [("home.svg".data, "<svg/>".data), ("search-icon.svg".data, "<g/>".data)] =
        specDeclBlock [("home.svg".data, "<svg/>".data), ("search-icon.svg".data, "<g/>".data)]
          ++ "\nexport ".data ++
          ('\x7b' :: specExportList
            ([("home.svg".data, "<svg/>".data), ("search-icon.svg".data, "<g/>".data)].map
              (fun fc => constName fc.1))) ++
          "\x7d;\n".data :=
  ⟨by decide, genModule_distinct _ (by decide)⟩

set_option maxRecDepth 4000 in
/-- Claim C3 (counterexample): for the two-file example, the generated
module nowhere contains the spec's claimed export line
`export \x7b HOME_SVG, SEARCH_ICON_SVG\x7d;` (no space before the comma or
the closing brace) — the code emits extra spaces around both names. -/
theorem genModule_example_line_absent :
    findSub ("export \x7b HOME_SVG, SEARCH_ICON_SVG\x7d;".data)
      (genModule [("home.svg".data, "<svg fill=\"#000\" d=\"M0 0\"/>".data),
        ("search-icon.svg".data, "<svg d=\"M1 1\"/>".data)]) = none := by
  decide

/-- Claim C3 (amended): for the two-file example, the generated module text
is exactly the two declaration lines followed by a blank line and the
export line `export \x7b HOME_SVG , SEARCH_ICON_SVG \x7d;` (the names
space-padded on both sides of the comma and before the closing brace). -/
theorem genModule_example :
    genModule [("home.svg".data, "<svg fill=\"#000\" d=\"M0 0\"/>".data),
      ("search-icon.svg".data, "<svg d=\"M1 1\"/>".data)] =
      ("const HOME_SVG = `<svg  d=\"M0 0\"/>`\nconst SEARCH_ICON_SVG = `<svg d=\"M1 1\"/>`\n\nexport \x7b HOME_SVG , SEARCH_ICON_SVG \x7d;\n".data) := by
  decide

/-- Claim C4 (counterexample): for two files whose names normalize to the
same constant `A_B_SVG`, the generated module does not contain just one
declaration of that name — the earlier declaration is not overwritten. -/
theorem genModule_collision_two_decls :
    ¬ countSub ("const A_B_SVG".data)
        (genModule [("a-b.svg".data, "x".data), ("a_b.svg".data, "y".data)]) = 1 := by
  decide

/-- Claim C4 (amended): for two files whose names normalize to the same
constant name, the generated module keeps both declarations — one per file,
both binding the same name — and the name appears twice in the export
list. -/
theorem genModule_collision (f1 c1 f2 c2 : List Char)
    (h : constName f1 = constName f2) :
    genModule [(f1, c1), (f2, c2)] =
      "const ".data ++ constName f2 ++ " = `".data ++ stripFill c1 ++ "`\n".data ++
        ("const ".data ++ constName f2 ++ " = `".data ++ stripFill c2 ++ "`\n".data) ++
        "\nexport ".data ++
        ('\x7b' :: ' ' :: (constName f2 ++ ' ' :: ',' :: ' ' ::
          (constName f2 ++ ' ' :: "\x7d;\n".data))) := by
  simp [genModule, genLoop, h, List.append_assoc]

theorem genModule_collision_witness :
    constName ("a-b.svg".data) = constName ("a_b.svg".data) ∧
      genModule [("a-b.svg".data, "x".data), ("a_b.svg".data, "y".data)] =
        "const ".data ++ constName ("a_b.svg".data) ++ " = `".data
            ++ stripFill ("x".data) ++ "`\n".data ++
          ("const ".data ++ constName ("a_b.svg".data) ++ " = `".data
            ++ stripFill ("y".data) ++ "`\n".data) ++
          "\nexport ".data ++
          ('\x7b' :: ' ' :: (constName ("a_b.svg".data) ++ ' ' :: ',' :: ' ' ::
            (constName ("a_b.svg".data) ++ ' ' :: "\x7d;\n".data))) :=
  ⟨by decide, genModule_collision _ _ _ _ (by decide)⟩

end Icons
